import Mathlib

/-!
Shallow embedding of the aggregate-count denormalization mechanism of the
3d-model-sharing repository: the rows of public.models and its four fact
tables (likes, comments, downloads, model_views), the update_model_counts
row trigger from src/database/schema.sql, and the request handlers that
insert or delete fact rows (src/backend/src/routes/models.js,
src/backend/src/routes/downloads.js, src/frontend/src/pages/ModelDetail.jsx).
UUID identifiers are abstracted to naturals; the SQL INTEGER counters are
modelled as Int since the schema puts no floor on them.
-/

namespace ModelShare

abbrev EntityId := Nat
abbrev UserId := Nat

/-- Counter-relevant columns of one row of public.models (schema.sql:24-45). -/
structure ModelRow where
  id : EntityId
  user_id : UserId
  is_public : Bool
  is_free : Bool
  like_count : Int
  comment_count : Int
  download_count : Int
  view_count : Int
deriving DecidableEq

/-- One row of public.likes (schema.sql:59-65); the UNIQUE(model_id, user_id)
constraint is enforced by insertLike below. -/
structure LikeRow where
  model_id : EntityId
  user_id : UserId
deriving DecidableEq

/-- One row of public.comments (schema.sql:48-56). -/
structure CommentRow where
  id : Nat
  model_id : EntityId
  user_id : UserId
deriving DecidableEq

/-- One row of public.downloads (schema.sql:87-94); user_id is nullable. -/
structure DownloadRow where
  model_id : EntityId
  user_id : Option UserId
deriving DecidableEq

/-- One row of public.model_views (schema.sql:77-84). -/
structure ViewRow where
  model_id : EntityId
  user_id : Option UserId
deriving DecidableEq

/-- The relational store: the models table plus the four fact tables. -/
structure DB where
  models : List ModelRow
  likes : List LikeRow
  comments : List CommentRow
  downloads : List DownloadRow
  model_views : List ViewRow
deriving DecidableEq

/-- UPDATE public.models SET ... WHERE id = E, applying the row function f
to every row whose id matches (a single atomic store statement). -/
def updateModels (db : DB) (E : EntityId) (f : ModelRow → ModelRow) : DB :=
  { db with models := db.models.map fun m => if m.id = E then f m else m }

/-- SET like_count = like_count + 1 (update_model_counts, schema.sql:144):
a relative update evaluated on the stored row. -/
def bumpLike (m : ModelRow) : ModelRow := { m with like_count := m.like_count + 1 }

/-- SET like_count = like_count - 1 (update_model_counts, schema.sql:155):
no floor at zero. -/
def bumpUnlike (m : ModelRow) : ModelRow := { m with like_count := m.like_count - 1 }

/-- SET comment_count = comment_count + 1 (schema.sql:146). -/
def bumpComment (m : ModelRow) : ModelRow := { m with comment_count := m.comment_count + 1 }

/-- SET comment_count = comment_count - 1 (schema.sql:157). -/
def bumpUncomment (m : ModelRow) : ModelRow := { m with comment_count := m.comment_count - 1 }

/-- SET download_count = download_count + 1 (schema.sql:148). -/
def bumpDownload (m : ModelRow) : ModelRow := { m with download_count := m.download_count + 1 }

/-- SET view_count = view_count + 1 (schema.sql:150); also the effect of the
Prisma viewCount increment in models.js:195-198. -/
def bumpView (m : ModelRow) : ModelRow := { m with view_count := m.view_count + 1 }

/-- INSERT INTO public.likes: rejected by the UNIQUE(model_id, user_id)
constraint (schema.sql:64) when a row for the pair already exists, leaving the
store untouched; on success the AFTER INSERT trigger (schema.sql:166-168)
increments like_count in the same statement. Returns the success flag. -/
def insertLike (db : DB) (r : LikeRow) : Bool × DB :=
  if db.likes.any (fun l => l.model_id == r.model_id && l.user_id == r.user_id) then
    (false, db)
  else
    (true, updateModels { db with likes := db.likes ++ [r] } r.model_id bumpLike)

/-- DELETE of the like row found for (E, u) (models.js:518-529 finds the row
and deletes it by primary key); when a row is deleted the AFTER DELETE trigger
(schema.sql:154-155) decrements like_count. No row, no effect. -/
def deleteLike (db : DB) (E : EntityId) (u : UserId) : DB :=
  match db.likes.find? (fun l => l.model_id == E && l.user_id == u) with
  | none => db
  | some _ =>
      updateModels
        { db with likes := db.likes.eraseP (fun l => l.model_id == E && l.user_id == u) }
        E bumpUnlike

/-- INSERT INTO public.comments plus the AFTER INSERT trigger branch
(schema.sql:145-146, 170-172). -/
def insertComment (db : DB) (r : CommentRow) : DB :=
  updateModels { db with comments := db.comments ++ [r] } r.model_id bumpComment

/-- DELETE FROM public.comments of the row with the given id plus the
AFTER DELETE trigger branch (schema.sql:156-157). -/
def deleteComment (db : DB) (cid : Nat) : DB :=
  match db.comments.find? (fun c => c.id == cid) with
  | none => db
  | some c =>
      updateModels
        { db with comments := db.comments.eraseP (fun x => x.id == cid) }
        c.model_id bumpUncomment

/-- INSERT INTO public.downloads plus the AFTER INSERT trigger
(schema.sql:147-148, 174-176). -/
def insertDownload (db : DB) (r : DownloadRow) : DB :=
  updateModels { db with downloads := db.downloads ++ [r] } r.model_id bumpDownload

/-- INSERT INTO public.model_views plus the AFTER INSERT trigger
(schema.sql:149-150, 178-180). -/
def insertView (db : DB) (r : ViewRow) : DB :=
  updateModels { db with model_views := db.model_views ++ [r] } r.model_id bumpView

/-- The first models row with the given id (prisma.model.findUnique on id,
models.js:167). -/
def modelById (db : DB) (E : EntityId) : Option ModelRow :=
  db.models.find? (fun m => m.id == E)

/-- The first public models row with the given id (prisma.model.findFirst with
id and isPublic, models.js:506-511 and downloads.js:14-19). -/
def publicModel (db : DB) (E : EntityId) : Option ModelRow :=
  db.models.find? (fun m => m.id == E && m.is_public)

inductive GetStatus
  | ok
  | notFound
  | serverError
deriving DecidableEq

/-- models.js GET /:id (lines 163-218): find the model, then run the Prisma
update with viewCount: increment 1 — no model_views row is inserted. If the
update throws, the catch block answers 500 without sending the model. -/
def getModelRoute (db : DB) (E : EntityId) (updateFails : Bool) : GetStatus × DB :=
  match db.models.find? (fun m => m.id == E) with
  | none => (GetStatus.notFound, db)
  | some _ =>
      if updateFails then (GetStatus.serverError, db)
      else (GetStatus.ok, updateModels db E bumpView)

inductive LikeResp
  | notFound
  | liked
  | unliked
  | serverError
deriving DecidableEq

/-- models.js POST /:id/like (lines 496-553): find the public model, look for
an existing like by this user, then either delete it (responding unliked) or
create one (responding liked); a create rejected by the store yields 500. -/
def likeRoute (db : DB) (E : EntityId) (u : UserId) : LikeResp × DB :=
  match db.models.find? (fun m => m.id == E && m.is_public) with
  | none => (LikeResp.notFound, db)
  | some _ =>
      match db.likes.find? (fun l => l.model_id == E && l.user_id == u) with
      | some _ => (LikeResp.unliked, deleteLike db E u)
      | none =>
          let r := insertLike db (LikeRow.mk E u)
          if r.1 then (LikeResp.liked, r.2) else (LikeResp.serverError, db)

inductive DlStatus
  | notFound
  | paymentRequired
  | fileError
  | fileSent
deriving DecidableEq

/-- HTTP status code attached to each download outcome (downloads.js). -/
def DlStatus.code : DlStatus → Nat
  | DlStatus.notFound => 404
  | DlStatus.paymentRequired => 403
  | DlStatus.fileError => 500
  | DlStatus.fileSent => 200

/-- downloads.js POST /:modelId (lines 7-67): find the public model; answer
403 when it is paid and the requester is not the owner, before any insert;
otherwise record the download but tolerate a failed insert (lines 40-43),
then fetch the file, failing with 500 only on a storage error. -/
def downloadRoute (db : DB) (E : EntityId) (u : UserId)
    (insertFails fileFails : Bool) : DlStatus × DB :=
  match db.models.find? (fun m => m.id == E && m.is_public) with
  | none => (DlStatus.notFound, db)
  | some m =>
      if !m.is_free && m.user_id != u then (DlStatus.paymentRequired, db)
      else
        let db1 := if insertFails then db else insertDownload db (DownloadRow.mk E (some u))
        if fileFails then (DlStatus.fileError, db1) else (DlStatus.fileSent, db1)

/-- ModelDetail.jsx handleDownload counter write (lines 85-93): an absolute
store write of the previously fetched count plus one, not a relative update. -/
def absWrite (fetched : Int) (m : ModelRow) : ModelRow :=
  { m with download_count := fetched + 1 }

/-- The supabase update statement of ModelDetail.jsx:86-89 applied to the
models table. -/
def frontendCountUpdate (db : DB) (E : EntityId) (fetched : Int) : DB :=
  updateModels db E (absWrite fetched)

/-- ModelDetail.jsx handleDownload (lines 52-114): signed URL first (a failure
throws), then the downloads insert (a failure is only logged, lines 81-83),
then the absolute counter write (a failure is only logged, lines 91-93);
the download itself then proceeds. Returns whether the download started. -/
def frontendDownload (db : DB) (E : EntityId) (u : UserId) (fetched : Int)
    (signFails insertFails updateFails : Bool) : Bool × DB :=
  if signFails then (false, db)
  else
    let db1 := if insertFails then db else insertDownload db (DownloadRow.mk E (some u))
    let db2 := if updateFails then db1 else frontendCountUpdate db1 E fetched
    (true, db2)

/-- One program operation touching the fact tables or the cached counters. -/
inductive Op
  | opInsertLike (r : LikeRow)
  | opDeleteLike (E : EntityId) (u : UserId)
  | opInsertComment (r : CommentRow)
  | opDeleteComment (cid : Nat)
  | opInsertDownload (r : DownloadRow)
  | opInsertView (r : ViewRow)
  | opGetModel (E : EntityId) (updateFails : Bool)
  | opLikeRoute (E : EntityId) (u : UserId)
  | opDownloadRoute (E : EntityId) (u : UserId) (insertFails fileFails : Bool)
  | opFrontendDownload (E : EntityId) (u : UserId) (fetched : Int)
      (signFails insertFails updateFails : Bool)

def Op.apply (db : DB) : Op → DB
  | Op.opInsertLike r => (insertLike db r).2
  | Op.opDeleteLike E u => deleteLike db E u
  | Op.opInsertComment r => insertComment db r
  | Op.opDeleteComment cid => deleteComment db cid
  | Op.opInsertDownload r => insertDownload db r
  | Op.opInsertView r => insertView db r
  | Op.opGetModel E uF => (getModelRoute db E uF).2
  | Op.opLikeRoute E u => (likeRoute db E u).2
  | Op.opDownloadRoute E u iF fF => (downloadRoute db E u iF fF).2
  | Op.opFrontendDownload E u fetched sF iF uF =>
      (frontendDownload db E u fetched sF iF uF).2

/-- True for the store statements whose counter maintenance is performed by
the update_model_counts trigger in the same statement. -/
def Op.viaTrigger : Op → Bool
  | Op.opInsertLike _ => true
  | Op.opDeleteLike _ _ => true
  | Op.opInsertComment _ => true
  | Op.opDeleteComment _ => true
  | Op.opInsertDownload _ => true
  | Op.opInsertView _ => true
  | _ => false

/-- One models row agrees with the live fact-row counts referencing it. -/
def rowConsistentB (db : DB) (m : ModelRow) : Bool :=
  (m.like_count == ((db.likes.countP fun l => l.model_id == m.id : Nat) : Int)) &&
  (m.comment_count == ((db.comments.countP fun c => c.model_id == m.id : Nat) : Int)) &&
  (m.download_count == ((db.downloads.countP fun d => d.model_id == m.id : Nat) : Int)) &&
  (m.view_count == ((db.model_views.countP fun v => v.model_id == m.id : Nat) : Int))

/-- Every cached counter equals the count of corresponding fact rows. -/
def countsConsistentB (db : DB) : Bool :=
  db.models.all (rowConsistentB db)

/-- A freshly created public free model with all counters at zero. -/
def mEx1 : ModelRow :=
  { id := 1, user_id := 5, is_public := true, is_free := true,
    like_count := 0, comment_count := 0, download_count := 0, view_count := 0 }

/-- A consistent store holding one model and no fact rows. -/
def dbEx1 : DB :=
  { models := [mEx1], likes := [], comments := [], downloads := [], model_views := [] }

/-- A model whose download counter already reads 2. -/
def mEx2 : ModelRow :=
  { id := 1, user_id := 5, is_public := true, is_free := true,
    like_count := 0, comment_count := 0, download_count := 2, view_count := 0 }

/-- A consistent store where two downloads of model 1 are already recorded. -/
def dbEx2 : DB :=
  { models := [mEx2], likes := [], comments := [],
    downloads := [DownloadRow.mk 1 (some 3), DownloadRow.mk 1 (some 4)], model_views := [] }

/-- A drifted store: a like row exists while like_count already reads zero. -/
def dbEx3 : DB :=
  { models := [mEx1], likes := [LikeRow.mk 1 9], comments := [], downloads := [],
    model_views := [] }

/-- A store where user 2 already likes model 1 and the counter agrees. -/
def mEx5 : ModelRow :=
  { id := 1, user_id := 5, is_public := true, is_free := true,
    like_count := 1, comment_count := 0, download_count := 0, view_count := 0 }

def dbEx5 : DB :=
  { models := [mEx5], likes := [LikeRow.mk 1 2], comments := [], downloads := [],
    model_views := [] }

/-- A paid model owned by user 5. -/
def mEx10 : ModelRow :=
  { id := 1, user_id := 5, is_public := true, is_free := false,
    like_count := 0, comment_count := 0, download_count := 0, view_count := 0 }

def dbEx10 : DB :=
  { models := [mEx10], likes := [], comments := [], downloads := [], model_views := [] }

/-- Trigger-mediated operations used by the C1 witness: one like and one view. -/
def wOps1 : List Op :=
  [Op.opInsertLike (LikeRow.mk 1 2), Op.opInsertView (ViewRow.mk 1 none)]

/-- The model row of dbEx1 after the two wOps1 fact insertions. -/
def mW1 : ModelRow :=
  { id := 1, user_id := 5, is_public := true, is_free := true,
    like_count := 1, comment_count := 0, download_count := 0, view_count := 1 }

/-- Progress of one in-flight POST /:id/like request: before the model lookup,
past the model lookup, past the existing-like lookup (carrying its result),
finished, rejected by the model lookup, or failed on a conflicting insert. -/
inductive Phase
  | start
  | ready
  | checked (found : Bool)
  | done
  | rejected
  | failed
deriving DecidableEq

/-- The shared store plus the local progress of each of n concurrent
like requests. -/
structure Session (n : Nat) where
  db : DB
  phase : Fin n → Phase

/-- One scheduler step of request i: the next single store statement of
models.js POST /:id/like for the fixed entity E, request i acting for user
(users i); statements of distinct requests interleave arbitrarily, each one
executing atomically at the store. -/
def likeStep {n : Nat} (E : EntityId) (users : Fin n → UserId)
    (s : Session n) (i : Fin n) : Session n :=
  match s.phase i with
  | Phase.start =>
      if (s.db.models.find? fun m => m.id == E && m.is_public).isSome then
        { s with phase := Function.update s.phase i Phase.ready }
      else
        { s with phase := Function.update s.phase i Phase.rejected }
  | Phase.ready =>
      let found := (s.db.likes.find? fun l => l.model_id == E && l.user_id == users i).isSome
      { s with phase := Function.update s.phase i (Phase.checked found) }
  | Phase.checked true =>
      { db := deleteLike s.db E (users i),
        phase := Function.update s.phase i Phase.done }
  | Phase.checked false =>
      let r := insertLike s.db (LikeRow.mk E (users i))
      if r.1 then
        { db := r.2, phase := Function.update s.phase i Phase.done }
      else
        { s with phase := Function.update s.phase i Phase.failed }
  | Phase.done => s
  | Phase.rejected => s
  | Phase.failed => s

/-- Run the interleaving given by sched from the all-idle initial session. -/
def likeRun {n : Nat} (E : EntityId) (users : Fin n → UserId) (db0 : DB)
    (sched : List (Fin n)) : Session n :=
  sched.foldl (likeStep E users) { db := db0, phase := fun _ => Phase.start }

/-- Number of completed requests. -/
def doneCard {n : Nat} (ph : Fin n → Phase) : Nat :=
  (Finset.univ.filter fun i => ph i = Phase.done).card

/-- Raise the like counter of the rows of entity E by k. -/
def bumpLikeBy (E : EntityId) (k : Nat) (m : ModelRow) : ModelRow :=
  if m.id = E then { m with like_count := m.like_count + (k : Int) } else m

/-- Invariant tying the store to the request phases: the models rows are the
initial ones with their like counter raised once per completed request, the
likes table holds exactly the initial rows plus the row of each completed
request, and no request is rejected, failed, or past a positive
existing-like lookup. -/
def likeInv {n : Nat} (E : EntityId) (users : Fin n → UserId) (db0 : DB)
    (s : Session n) : Prop :=
  s.db.models = db0.models.map (bumpLikeBy E (doneCard s.phase)) ∧
  (∀ r : LikeRow, r ∈ s.db.likes ↔
    (r ∈ db0.likes ∨ ∃ i, s.phase i = Phase.done ∧ r = LikeRow.mk E (users i))) ∧
  (∀ i, s.phase i ≠ Phase.rejected) ∧
  (∀ i, s.phase i ≠ Phase.failed) ∧
  (∀ i, s.phase i ≠ Phase.checked true)

theorem countP_eraseP_first {α : Type} (p q : α → Bool) :
    ∀ (l : List α) (a : α), l.find? p = some a →
      l.countP q = (l.eraseP p).countP q + if q a then 1 else 0 := by
  intro l
  induction l with
  | nil => intro a h; simp at h
  | cons x t ih =>
    intro a h
    by_cases hx : p x = true
    · have hxa : x = a := by
        rw [List.find?_cons_of_pos _ hx] at h
        exact Option.some.inj h
      subst hxa
      rw [List.eraseP_cons_of_pos hx, List.countP_cons]
    · have h2 : t.find? p = some a := by
        rwa [List.find?_cons_of_neg _ (by simpa using hx)] at h
      rw [List.eraseP_cons_of_neg (by simpa using hx), List.countP_cons, List.countP_cons,
        ih a h2]
      cases hq : q x
      · simp
      · simp
        omega

theorem find?_map_pred {α : Type} (f : α → α) (q : α → Bool)
    (hf : ∀ a, q (f a) = q a) (l : List α) :
    (l.map f).find? q = (l.find? q).map f := by
  induction l with
  | nil => rfl
  | cons x t ih =>
    by_cases hx : q x = true
    · rw [List.map_cons, List.find?_cons_of_pos _ (by rw [hf]; exact hx),
        List.find?_cons_of_pos _ hx]
      rfl
    · rw [List.map_cons, List.find?_cons_of_neg _ (by rw [hf]; simpa using hx),
        List.find?_cons_of_neg _ (by simpa using hx), ih]

theorem find?_conj_of_find? {α : Type} (p q : α → Bool) :
    ∀ (l : List α) (a : α), l.find? p = some a → q a = true →
      l.find? (fun x => p x && q x) = some a := by
  intro l
  induction l with
  | nil => intro a h; simp at h
  | cons x t ih =>
    intro a h hq
    by_cases hx : p x = true
    · have hxa : x = a := by
        rw [List.find?_cons_of_pos _ hx] at h
        exact Option.some.inj h
      subst hxa
      rw [List.find?_cons_of_pos _ (by rw [hx, hq]; rfl)]
    · have h2 : t.find? p = some a := by
        rwa [List.find?_cons_of_neg _ (by simpa using hx)] at h
      rw [List.find?_cons_of_neg _ (by simp [hx]), ih a h2 hq]

theorem modelById_updateModels (db : DB) (F E : EntityId) (f : ModelRow → ModelRow)
    (hf : ∀ m, (f m).id = m.id) :
    modelById (updateModels db F f) E =
      (modelById db E).map (fun m => if m.id = F then f m else m) := by
  unfold modelById updateModels
  exact find?_map_pred _ _ (fun a => by by_cases h : a.id = F <;> simp [h, hf]) _

theorem publicModel_updateModels (db : DB) (F E : EntityId) (f : ModelRow → ModelRow)
    (hf : ∀ m, (f m).id = m.id) (hf2 : ∀ m, (f m).is_public = m.is_public) :
    publicModel (updateModels db F f) E =
      (publicModel db E).map (fun m => if m.id = F then f m else m) := by
  unfold publicModel updateModels
  exact find?_map_pred _ _ (fun a => by by_cases h : a.id = F <;> simp [h, hf, hf2]) _

theorem likePred_iff (E : EntityId) (u : UserId) (x : LikeRow) :
    ((x.model_id == E && x.user_id == u) = true) ↔ x = LikeRow.mk E u := by
  cases x
  simp [Bool.and_eq_true, LikeRow.mk.injEq]

theorem likeAny_iff (l : List LikeRow) (E : EntityId) (u : UserId) :
    ((l.any fun x => x.model_id == E && x.user_id == u) = true) ↔ LikeRow.mk E u ∈ l := by
  rw [List.any_eq_true]
  constructor
  · rintro ⟨x, hx, hp⟩
    rw [likePred_iff E u x] at hp
    rwa [hp] at hx
  · intro h
    exact ⟨LikeRow.mk E u, h, by simp⟩

theorem likeFind_isSome (l : List LikeRow) (E : EntityId) (u : UserId) :
    ((l.find? fun x => x.model_id == E && x.user_id == u).isSome = true) ↔
      LikeRow.mk E u ∈ l := by
  rw [List.find?_isSome]
  constructor
  · rintro ⟨x, hx, hp⟩
    rw [likePred_iff E u x] at hp
    rwa [hp] at hx
  · intro h
    exact ⟨LikeRow.mk E u, h, by simp⟩

theorem countsConsistent_iff (db : DB) :
    countsConsistentB db = true ↔ ∀ m ∈ db.models,
      m.like_count = ((db.likes.countP fun l => l.model_id == m.id : Nat) : Int) ∧
      m.comment_count = ((db.comments.countP fun c => c.model_id == m.id : Nat) : Int) ∧
      m.download_count = ((db.downloads.countP fun d => d.model_id == m.id : Nat) : Int) ∧
      m.view_count = ((db.model_views.countP fun v => v.model_id == m.id : Nat) : Int) := by
  unfold countsConsistentB rowConsistentB
  rw [List.all_eq_true]
  simp only [Bool.and_eq_true, beq_iff_eq, and_assoc]

theorem find?_pred {α : Type} (p : α → Bool) (l : List α) (a : α)
    (h : l.find? p = some a) : p a = true :=
  List.find?_some h

theorem consistent_insertLike (db : DB) (r : LikeRow)
    (hc : countsConsistentB db = true) : countsConsistentB (insertLike db r).2 = true := by
  unfold insertLike
  by_cases h : (db.likes.any fun l => l.model_id == r.model_id && l.user_id == r.user_id) = true
  · rwa [if_pos h]
  · rw [if_neg h]
    rw [countsConsistent_iff] at hc ⊢
    intro m hm
    simp only [updateModels] at hm ⊢
    obtain ⟨m0, hm0, rfl⟩ := List.mem_map.mp hm
    obtain ⟨h1, h2, h3, h4⟩ := hc m0 hm0
    by_cases hid : m0.id = r.model_id
    · rw [if_pos hid]
      refine ⟨?_, by simpa [bumpLike] using h2, by simpa [bumpLike] using h3,
        by simpa [bumpLike] using h4⟩
      simp only [bumpLike, List.countP_append, List.countP_cons, List.countP_nil,
        beq_iff_eq, hid.symm]
      simp only [h1]
      push_cast
      ring
    · rw [if_neg hid]
      have hid2 : ¬ r.model_id = m0.id := fun hh => hid hh.symm
      refine ⟨?_, h2, h3, h4⟩
      simp only [List.countP_append, List.countP_cons, List.countP_nil, beq_iff_eq, hid2]
      simpa using h1

theorem consistent_deleteLike (db : DB) (E : EntityId) (u : UserId)
    (hc : countsConsistentB db = true) : countsConsistentB (deleteLike db E u) = true := by
  unfold deleteLike
  cases hfind : db.likes.find? (fun l => l.model_id == E && l.user_id == u) with
  | none => exact hc
  | some a =>
    have hpa := find?_pred _ _ _ hfind
    have haE : a.model_id = E := by
      have hpa2 := (likePred_iff E u a).mp (by simpa using hpa)
      rw [hpa2]
    rw [countsConsistent_iff] at hc ⊢
    intro m hm
    simp only [updateModels] at hm ⊢
    obtain ⟨m0, hm0, rfl⟩ := List.mem_map.mp hm
    obtain ⟨h1, h2, h3, h4⟩ := hc m0 hm0
    have hcount := countP_eraseP_first (fun l => l.model_id == E && l.user_id == u)
      (fun l => l.model_id == m0.id) db.likes a hfind
    by_cases hid : m0.id = E
    · rw [if_pos hid]
      refine ⟨?_, by simpa [bumpUnlike] using h2, by simpa [bumpUnlike] using h3,
        by simpa [bumpUnlike] using h4⟩
      have hqa : (a.model_id == m0.id) = true := by rw [beq_iff_eq, haE, hid]
      rw [if_pos hqa] at hcount
      simp only [bumpUnlike]
      omega
    · rw [if_neg hid]
      refine ⟨?_, h2, h3, h4⟩
      have hqa : (a.model_id == m0.id) = false := by
        rw [beq_eq_false_iff_ne, haE]
        exact fun hh => hid hh.symm
      rw [if_neg (by simp [hqa])] at hcount
      omega

theorem consistent_insertComment (db : DB) (r : CommentRow)
    (hc : countsConsistentB db = true) : countsConsistentB (insertComment db r) = true := by
  unfold insertComment
  rw [countsConsistent_iff] at hc ⊢
  intro m hm
  simp only [updateModels] at hm ⊢
  obtain ⟨m0, hm0, rfl⟩ := List.mem_map.mp hm
  obtain ⟨h1, h2, h3, h4⟩ := hc m0 hm0
  by_cases hid : m0.id = r.model_id
  · rw [if_pos hid]
    refine ⟨by simpa [bumpComment] using h1, ?_, by simpa [bumpComment] using h3,
      by simpa [bumpComment] using h4⟩
    simp only [bumpComment, List.countP_append, List.countP_cons, List.countP_nil,
      beq_iff_eq, hid.symm]
    simp only [h2]
    push_cast
    ring
  · rw [if_neg hid]
    have hid2 : ¬ r.model_id = m0.id := fun hh => hid hh.symm
    refine ⟨h1, ?_, h3, h4⟩
    simp only [List.countP_append, List.countP_cons, List.countP_nil, beq_iff_eq, hid2]
    simpa using h2

theorem consistent_deleteComment (db : DB) (cid : Nat)
    (hc : countsConsistentB db = true) : countsConsistentB (deleteComment db cid) = true := by
  unfold deleteComment
  cases hfind : db.comments.find? (fun c => c.id == cid) with
  | none => exact hc
  | some c =>
    rw [countsConsistent_iff] at hc ⊢
    intro m hm
    simp only [updateModels] at hm ⊢
    obtain ⟨m0, hm0, rfl⟩ := List.mem_map.mp hm
    obtain ⟨h1, h2, h3, h4⟩ := hc m0 hm0
    have hcount := countP_eraseP_first (fun x => x.id == cid)
      (fun x => x.model_id == m0.id) db.comments c hfind
    by_cases hid : m0.id = c.model_id
    · rw [if_pos hid]
      refine ⟨by simpa [bumpUncomment] using h1, ?_, by simpa [bumpUncomment] using h3,
        by simpa [bumpUncomment] using h4⟩
      have hqa : (c.model_id == m0.id) = true := by rw [beq_iff_eq, hid]
      rw [if_pos hqa] at hcount
      simp only [bumpUncomment]
      omega
    · rw [if_neg hid]
      refine ⟨h1, ?_, h3, h4⟩
      have hqa : (c.model_id == m0.id) = false := by
        rw [beq_eq_false_iff_ne]
        exact fun hh => hid hh.symm
      rw [if_neg (by simp [hqa])] at hcount
      omega

theorem consistent_insertDownload (db : DB) (r : DownloadRow)
    (hc : countsConsistentB db = true) : countsConsistentB (insertDownload db r) = true := by
  unfold insertDownload
  rw [countsConsistent_iff] at hc ⊢
  intro m hm
  simp only [updateModels] at hm ⊢
  obtain ⟨m0, hm0, rfl⟩ := List.mem_map.mp hm
  obtain ⟨h1, h2, h3, h4⟩ := hc m0 hm0
  by_cases hid : m0.id = r.model_id
  · rw [if_pos hid]
    refine ⟨by simpa [bumpDownload] using h1, by simpa [bumpDownload] using h2, ?_,
      by simpa [bumpDownload] using h4⟩
    simp only [bumpDownload, List.countP_append, List.countP_cons, List.countP_nil,
      beq_iff_eq, hid.symm]
    simp only [h3]
    push_cast
    ring
  · rw [if_neg hid]
    have hid2 : ¬ r.model_id = m0.id := fun hh => hid hh.symm
    refine ⟨h1, h2, ?_, h4⟩
    simp only [List.countP_append, List.countP_cons, List.countP_nil, beq_iff_eq, hid2]
    simpa using h3

theorem consistent_insertView (db : DB) (r : ViewRow)
    (hc : countsConsistentB db = true) : countsConsistentB (insertView db r) = true := by
  unfold insertView
  rw [countsConsistent_iff] at hc ⊢
  intro m hm
  simp only [updateModels] at hm ⊢
  obtain ⟨m0, hm0, rfl⟩ := List.mem_map.mp hm
  obtain ⟨h1, h2, h3, h4⟩ := hc m0 hm0
  by_cases hid : m0.id = r.model_id
  · rw [if_pos hid]
    refine ⟨by simpa [bumpView] using h1, by simpa [bumpView] using h2,
      by simpa [bumpView] using h3, ?_⟩
    simp only [bumpView, List.countP_append, List.countP_cons, List.countP_nil,
      beq_iff_eq, hid.symm]
    simp only [h4]
    push_cast
    ring
  · rw [if_neg hid]
    have hid2 : ¬ r.model_id = m0.id := fun hh => hid hh.symm
    refine ⟨h1, h2, h3, ?_⟩
    simp only [List.countP_append, List.countP_cons, List.countP_nil, beq_iff_eq, hid2]
    simpa using h4

theorem consistent_applyTrigger (db : DB) (op : Op) (hop : op.viaTrigger = true)
    (hc : countsConsistentB db = true) : countsConsistentB (Op.apply db op) = true := by
  cases op with
  | opInsertLike r => exact consistent_insertLike db r hc
  | opDeleteLike E u => exact consistent_deleteLike db E u hc
  | opInsertComment r => exact consistent_insertComment db r hc
  | opDeleteComment cid => exact consistent_deleteComment db cid hc
  | opInsertDownload r => exact consistent_insertDownload db r hc
  | opInsertView r => exact consistent_insertView db r hc
  | opGetModel E uF => simp [Op.viaTrigger] at hop
  | opLikeRoute E u => simp [Op.viaTrigger] at hop
  | opDownloadRoute E u iF fF => simp [Op.viaTrigger] at hop
  | opFrontendDownload E u fetched sF iF uF => simp [Op.viaTrigger] at hop

theorem consistent_foldl (ops : List Op) : ∀ db : DB, countsConsistentB db = true →
    (∀ op ∈ ops, op.viaTrigger = true) →
    countsConsistentB (ops.foldl Op.apply db) = true := by
  induction ops with
  | nil => intro db hc _; simpa using hc
  | cons op t ih =>
    intro db hc hall
    simp only [List.foldl_cons]
    exact ih _ (consistent_applyTrigger db op (hall op (by simp)) hc)
      (fun o ho => hall o (by simp [ho]))

theorem getModel_view_drift (db : DB) (E : EntityId) (m : ModelRow)
    (hc : countsConsistentB db = true) (hm : modelById db E = some m) :
    ∃ m1, modelById (getModelRoute db E false).2 E = some m1 ∧
      m1.view_count = ((db.model_views.countP fun v => v.model_id == E : Nat) : Int) + 1 ∧
      (getModelRoute db E false).2.model_views = db.model_views := by
  have hmid : m.id = E := by
    have := find?_pred _ _ _ hm
    simpa using this
  have hmem : m ∈ db.models := List.mem_of_find?_eq_some hm
  have hfind : db.models.find? (fun x => x.id == E) = some m := hm
  have hroute : (getModelRoute db E false).2 = updateModels db E bumpView := by
    unfold getModelRoute
    rw [hfind]
    rfl
  refine ⟨bumpView m, ?_, ?_, ?_⟩
  · rw [hroute, modelById_updateModels db E E bumpView (fun x => rfl), hm]
    simp [hmid]
  · have h4 := ((countsConsistent_iff db).mp hc m hmem).2.2.2
    rw [hmid] at h4
    simp [bumpView, h4]
  · rw [hroute]
    rfl

theorem find?_append_none {α : Type} (p : α → Bool) :
    ∀ (l1 l2 : List α), l1.find? p = none → (l1 ++ l2).find? p = l2.find? p := by
  intro l1
  induction l1 with
  | nil => intro l2 _; rfl
  | cons x t ih =>
    intro l2 h
    have hx : ¬ p x = true := by
      intro hx
      rw [List.find?_cons_of_pos _ hx] at h
      exact Option.noConfusion h
    rw [List.cons_append, List.find?_cons_of_neg _ hx]
    rw [List.find?_cons_of_neg _ hx] at h
    exact ih l2 h

/-- C1 (counterexample): the GET /:id model-view operation does not keep
view_count equal to the count of model_views rows: on a consistent store with
one model and no fact rows, one successful GET leaves the store inconsistent,
because it increments view_count without inserting a model_views row. -/
theorem C1_counterexample :
    countsConsistentB dbEx1 = true ∧
    countsConsistentB (getModelRoute dbEx1 1 false).2 = false := by
  decide

/-- C1 (amended): after any sequence of the trigger-mediated fact-recording
operations, every cached counter equals the count of corresponding fact rows;
the GET /:id operation however increments the cached view_count without
recording a model_views row, leaving view_count one above the row count. -/
theorem C1_counter_cache_amended (db : DB) (ops : List Op) (E : EntityId) (m : ModelRow)
    (hc : countsConsistentB db = true)
    (hops : ∀ op ∈ ops, op.viaTrigger = true)
    (hm : modelById (ops.foldl Op.apply db) E = some m) :
    countsConsistentB (ops.foldl Op.apply db) = true ∧
    ∃ m1, modelById (getModelRoute (ops.foldl Op.apply db) E false).2 E = some m1 ∧
      m1.view_count =
        (((ops.foldl Op.apply db).model_views.countP fun v => v.model_id == E : Nat) : Int)
          + 1 ∧
      (getModelRoute (ops.foldl Op.apply db) E false).2.model_views
        = (ops.foldl Op.apply db).model_views ∧
      m1.view_count ≠
        (((getModelRoute (ops.foldl Op.apply db) E false).2.model_views.countP
            fun v => v.model_id == E : Nat) : Int) := by
  have hfold := consistent_foldl ops db hc hops
  obtain ⟨m1, ha, hb, hviews⟩ := getModel_view_drift (ops.foldl Op.apply db) E m hfold hm
  refine ⟨hfold, m1, ha, hb, hviews, ?_⟩
  rw [hviews, hb]
  omega

/-- C1 (witness): the amended statement applied to the one-model store after
one like insertion and one view insertion. -/
theorem C1_witness :
    countsConsistentB (wOps1.foldl Op.apply dbEx1) = true ∧
    ∃ m1, modelById (getModelRoute (wOps1.foldl Op.apply dbEx1) 1 false).2 1 = some m1 ∧
      m1.view_count =
        (((wOps1.foldl Op.apply dbEx1).model_views.countP fun v => v.model_id == 1 : Nat) : Int)
          + 1 ∧
      (getModelRoute (wOps1.foldl Op.apply dbEx1) 1 false).2.model_views
        = (wOps1.foldl Op.apply dbEx1).model_views ∧
      m1.view_count ≠
        (((getModelRoute (wOps1.foldl Op.apply dbEx1) 1 false).2.model_views.countP
            fun v => v.model_id == 1 : Nat) : Int) :=
  C1_counter_cache_amended dbEx1 wOps1 1 mW1 (by decide) (by decide) (by decide)

/-- C2 (counterexample): the download-counter write of the frontend download
handler is not a store-evaluated relative update: on a store whose model 1 has
download_count 2, the handler applied with a stale fetched value of 0 writes 1,
not the stored value plus one. -/
theorem C2_counterexample :
    (modelById dbEx2 1).map ModelRow.download_count = some 2 ∧
    (modelById (frontendCountUpdate dbEx2 1 0) 1).map ModelRow.download_count = some 1 ∧
    ((1 : Int) ≠ 2 + 1) := by
  decide

/-- C2 (amended): the trigger increment on a download insert is a relative
update, yielding the stored value plus one on every store state, and so is the
view-count increment of GET /:id; but the frontend download handler writes the
previously fetched value plus one absolutely, which differs from the stored
value plus one whenever the fetched value is stale. -/
theorem C2_relative_update_amended (db : DB) (E : EntityId) (r : DownloadRow)
    (fetched : Int) (m : ModelRow)
    (hm : modelById db E = some m) (hr : r.model_id = E) :
    (∃ m1, modelById (insertDownload db r) E = some m1 ∧
        m1.download_count = m.download_count + 1) ∧
    (∃ m3, modelById (getModelRoute db E false).2 E = some m3 ∧
        m3.view_count = m.view_count + 1) ∧
    (∃ m2, modelById (frontendCountUpdate db E fetched) E = some m2 ∧
        m2.download_count = fetched + 1) ∧
    (fetched ≠ m.download_count →
      ∀ m2, modelById (frontendCountUpdate db E fetched) E = some m2 →
        m2.download_count ≠ m.download_count + 1) := by
  have hmid : m.id = E := by
    have := find?_pred _ _ _ hm
    simpa using this
  have hbase : modelById { db with downloads := db.downloads ++ [r] } E = modelById db E :=
    rfl
  refine ⟨⟨bumpDownload m, ?_, rfl⟩, ⟨bumpView m, ?_, rfl⟩, ⟨absWrite fetched m, ?_, rfl⟩, ?_⟩
  · unfold insertDownload
    rw [modelById_updateModels _ r.model_id E bumpDownload (fun x => rfl), hbase, hm]
    simp [hmid, hr]
  · have hroute : (getModelRoute db E false).2 = updateModels db E bumpView := by
      unfold getModelRoute
      rw [show db.models.find? (fun x => x.id == E) = some m from hm]
      rfl
    rw [hroute, modelById_updateModels db E E bumpView (fun x => rfl), hm]
    simp [hmid]
  · unfold frontendCountUpdate
    rw [modelById_updateModels db E E (absWrite fetched) (fun x => rfl), hm]
    simp [hmid]
  · intro hst m2 hm2
    unfold frontendCountUpdate at hm2
    rw [modelById_updateModels db E E (absWrite fetched) (fun x => rfl), hm] at hm2
    simp [hmid] at hm2
    subst hm2
    simp only [absWrite]
    omega

/-- C2 (witness): the amended statement applied to the two-download store with
a stale fetched value of 0. -/
theorem C2_witness :
    (0 : Int) ≠ mEx2.download_count ∧
    ∀ m2, modelById (frontendCountUpdate dbEx2 1 0) 1 = some m2 →
      m2.download_count ≠ mEx2.download_count + 1 :=
  ⟨by decide,
    (C2_relative_update_amended dbEx2 1 (DownloadRow.mk 1 (some 3)) 0 mEx2 (by decide)
      (by decide)).2.2.2 (by decide)⟩

/-- C3 (counterexample): the DELETE branch of the counter trigger has no floor
at zero: on a drifted store whose model 1 reads like_count 0 while one like row
exists, deleting that like row drives like_count to minus one. -/
theorem C3_counterexample :
    (modelById dbEx3 1).map ModelRow.like_count = some 0 ∧
    (modelById (deleteLike dbEx3 1 9) 1).map ModelRow.like_count = some (-1) ∧
    ((-1 : Int) < 0) := by
  decide

/-- C3 (amended): the fact-deletion path decrements the cached counter by
exactly one, unconditionally: whenever a like row for (E, u) is present, the
counter after deletion equals the counter before minus one, so a counter at or
below zero is driven strictly below zero. -/
theorem C3_no_floor_amended (db : DB) (E : EntityId) (u : UserId) (m : ModelRow)
    (hm : modelById db E = some m)
    (hrow : LikeRow.mk E u ∈ db.likes) :
    ∃ m1, modelById (deleteLike db E u) E = some m1 ∧
      m1.like_count = m.like_count - 1 ∧
      (m.like_count ≤ 0 → m1.like_count < 0) := by
  have hmid : m.id = E := by
    have := find?_pred _ _ _ hm
    simpa using this
  have hsome : (db.likes.find? fun l => l.model_id == E && l.user_id == u).isSome = true :=
    (likeFind_isSome db.likes E u).mpr hrow
  obtain ⟨a, ha⟩ := Option.isSome_iff_exists.mp hsome
  have hbase :
      modelById
        { db with likes := db.likes.eraseP (fun l => l.model_id == E && l.user_id == u) } E
        = modelById db E := rfl
  refine ⟨bumpUnlike m, ?_, rfl, ?_⟩
  · unfold deleteLike
    rw [ha, modelById_updateModels _ E E bumpUnlike (fun x => rfl), hbase, hm]
    simp [hmid]
  · intro hle
    simp only [bumpUnlike]
    omega

/-- C3 (witness): the amended statement applied to the drifted store dbEx3. -/
theorem C3_witness :
    ∃ m1, modelById (deleteLike dbEx3 1 9) 1 = some m1 ∧
      m1.like_count = mEx1.like_count - 1 ∧
      (mEx1.like_count ≤ 0 → m1.like_count < 0) :=
  C3_no_floor_amended dbEx3 1 9 mEx1 (by decide) (by decide)

/-- C4: once the primary fact row is handled, auxiliary tracking and counter
failures never fail the user-visible action for the like/comment/download
kinds: the backend download route answers fileSent regardless of a failed
downloads insert, and the frontend download handler reports success regardless
of failures of its tracking insert and its counter write; the model-detail GET
route, by contrast, answers 500 when its view-count update fails. -/
theorem C4_theorem (db : DB) (E : EntityId) (u : UserId) (m : ModelRow)
    (hm : publicModel db E = some m) (hperm : m.is_free = true ∨ m.user_id = u) :
    (∀ insertFails, (downloadRoute db E u insertFails false).1 = DlStatus.fileSent) ∧
    (∀ fetched insertFails updateFails,
      (frontendDownload db E u fetched false insertFails updateFails).1 = true) ∧
    (getModelRoute db E true).1 = GetStatus.serverError := by
  have hfind : db.models.find? (fun x => x.id == E && x.is_public) = some m := hm
  have hcond : (!m.is_free && m.user_id != u) = false := by
    rcases hperm with h | h
    · rw [h]
      rfl
    · rw [h]
      simp
  refine ⟨?_, ?_, ?_⟩
  · intro insertFails
    unfold downloadRoute
    rw [hfind]
    simp only [hcond]
    cases insertFails <;> rfl
  · intro fetched insertFails updateFails
    unfold frontendDownload
    cases insertFails <;> cases updateFails <;> rfl
  · have hpm : (m.id == E) = true := by
      have h2 := find?_pred _ _ _ hfind
      simp only [Bool.and_eq_true] at h2
      exact h2.1
    have hsome : (db.models.find? fun x => x.id == E).isSome = true := by
      rw [List.find?_isSome]
      exact ⟨m, List.mem_of_find?_eq_some hfind, hpm⟩
    obtain ⟨x, hx⟩ := Option.isSome_iff_exists.mp hsome
    unfold getModelRoute
    rw [hx]
    rfl

/-- C4 (witness): the statement applied to the one-model free public store. -/
theorem C4_witness :
    (∀ insertFails, (downloadRoute dbEx1 1 7 insertFails false).1 = DlStatus.fileSent) ∧
    (∀ fetched insertFails updateFails,
      (frontendDownload dbEx1 1 7 fetched false insertFails updateFails).1 = true) ∧
    (getModelRoute dbEx1 1 true).1 = GetStatus.serverError :=
  C4_theorem dbEx1 1 7 mEx1 (by decide) (Or.inl (by decide))

/-- C5: the store rejects a second like fact for the same (entity, user) pair,
leaving the whole store, and hence the like counter, unchanged; and any like
insertion preserves the at-most-one-row-per-pair bound. -/
theorem C5_theorem (db : DB) (E : EntityId) (u : UserId) (r : LikeRow)
    (h : LikeRow.mk E u ∈ db.likes)
    (hcnt : db.likes.countP (fun l => l.model_id == E && l.user_id == u) ≤ 1) :
    insertLike db (LikeRow.mk E u) = (false, db) ∧
    (insertLike db r).2.likes.countP (fun l => l.model_id == E && l.user_id == u) ≤ 1 := by
  constructor
  · unfold insertLike
    rw [if_pos ((likeAny_iff db.likes E u).mpr h)]
  · unfold insertLike
    by_cases hg : (db.likes.any fun l => l.model_id == r.model_id && l.user_id == r.user_id)
        = true
    · rw [if_pos hg]
      exact hcnt
    · rw [if_neg hg]
      by_cases hp : (r.model_id == E && r.user_id == u) = true
      · exfalso
        apply hg
        have hre : r = LikeRow.mk E u := (likePred_iff E u r).mp hp
        rw [hre]
        exact (likeAny_iff db.likes E u).mpr h
      · simp only [updateModels]
        rw [List.countP_append]
        simpa [List.countP_cons, hp] using hcnt

/-- C5 (witness): the statement applied to the store where user 2 already
likes model 1. -/
theorem C5_witness :
    insertLike dbEx5 (LikeRow.mk 1 2) = (false, dbEx5) ∧
    (insertLike dbEx5 (LikeRow.mk 1 2)).2.likes.countP
        (fun l => l.model_id == 1 && l.user_id == 2) ≤ 1 :=
  C5_theorem dbEx5 1 2 (LikeRow.mk 1 2) (by decide) (by decide)

/-- C10: on a paid model, a requester other than the owner receives the 403
paymentRequired answer and the store is completely unchanged: no download row
is inserted and no counter is touched, regardless of the failure flags. -/
theorem C10_theorem (db : DB) (E : EntityId) (u : UserId) (m : ModelRow)
    (hm : publicModel db E = some m) (hfree : m.is_free = false) (hown : m.user_id ≠ u)
    (insertFails fileFails : Bool) :
    (downloadRoute db E u insertFails fileFails).1 = DlStatus.paymentRequired ∧
    (downloadRoute db E u insertFails fileFails).2 = db ∧
    DlStatus.code (downloadRoute db E u insertFails fileFails).1 = 403 := by
  have hfind : db.models.find? (fun x => x.id == E && x.is_public) = some m := hm
  have hcond : (!m.is_free && m.user_id != u) = true := by
    rw [hfree]
    simpa using hown
  unfold downloadRoute
  rw [hfind]
  simp only [hcond]
  exact ⟨rfl, rfl, rfl⟩

/-- C10 (witness): the statement applied to the paid model store with a
non-owner requester. -/
theorem C10_witness :
    (downloadRoute dbEx10 1 6 false false).1 = DlStatus.paymentRequired ∧
    (downloadRoute dbEx10 1 6 false false).2 = dbEx10 ∧
    DlStatus.code (downloadRoute dbEx10 1 6 false false).1 = 403 :=
  C10_theorem dbEx10 1 6 mEx10 (by decide) (by decide) (by decide) false false

theorem publicModel_set_likes (db : DB) (ls : List LikeRow) (E : EntityId) :
    publicModel { db with likes := ls } E = publicModel db E := rfl

theorem likeRoute_create (db : DB) (E : EntityId) (u : UserId) (m : ModelRow)
    (hm : publicModel db E = some m) (hfresh : LikeRow.mk E u ∉ db.likes) :
    likeRoute db E u =
      (LikeResp.liked,
        updateModels { db with likes := db.likes ++ [LikeRow.mk E u] } E bumpLike) := by
  have hnone : db.likes.find? (fun l => l.model_id == E && l.user_id == u) = none := by
    rw [List.find?_eq_none]
    intro x hx hpx
    exact hfresh (((likePred_iff E u x).mp hpx) ▸ hx)
  have hany : ¬ (db.likes.any fun l =>
      l.model_id == (LikeRow.mk E u).model_id && l.user_id == (LikeRow.mk E u).user_id)
        = true := by
    intro hcontra
    exact hfresh ((likeAny_iff db.likes E u).mp hcontra)
  unfold likeRoute
  rw [show db.models.find? (fun x => x.id == E && x.is_public) = some m from hm]
  simp only [hnone]
  unfold insertLike
  rw [if_neg hany]
  rfl

theorem likeRoute_delete (db : DB) (E : EntityId) (u : UserId) (m : ModelRow)
    (hm : publicModel db E = some m) (hmem : LikeRow.mk E u ∈ db.likes) :
    likeRoute db E u =
      (LikeResp.unliked,
        updateModels
          { db with likes := db.likes.eraseP (fun l => l.model_id == E && l.user_id == u) }
          E bumpUnlike) := by
  have hsome := (likeFind_isSome db.likes E u).mpr hmem
  obtain ⟨a, ha⟩ := Option.isSome_iff_exists.mp hsome
  unfold likeRoute
  rw [show db.models.find? (fun x => x.id == E && x.is_public) = some m from hm]
  simp only [ha]
  unfold deleteLike
  simp only [ha]

theorem eraseP_pair_not_mem (l : List LikeRow) (E : EntityId) (u : UserId)
    (hU : l.countP (fun x => x.model_id == E && x.user_id == u) ≤ 1)
    (hmem : LikeRow.mk E u ∈ l) :
    LikeRow.mk E u ∉ l.eraseP (fun x => x.model_id == E && x.user_id == u) := by
  have hsome := (likeFind_isSome l E u).mpr hmem
  obtain ⟨a, ha⟩ := Option.isSome_iff_exists.mp hsome
  have hqa := find?_pred _ _ _ ha
  have hcount := countP_eraseP_first (fun x => x.model_id == E && x.user_id == u)
    (fun x => x.model_id == E && x.user_id == u) l a ha
  rw [if_pos hqa] at hcount
  intro hcon
  have hpos : 0 < (l.eraseP (fun x => x.model_id == E && x.user_id == u)).countP
      (fun x => x.model_id == E && x.user_id == u) :=
    List.countP_pos_iff.mpr ⟨LikeRow.mk E u, hcon, by simp⟩
  omega

/-- C6: starting from a store whose model E has like_count 0 and no like by A,
the like operation by A answers liked and leaves like_count 1, and the
following like operation by A answers unliked and restores like_count to 0. -/
theorem C6_theorem (db : DB) (E : EntityId) (A : UserId) (m : ModelRow)
    (hm : publicModel db E = some m) (h0 : m.like_count = 0)
    (hfresh : LikeRow.mk E A ∉ db.likes) :
    (likeRoute db E A).1 = LikeResp.liked ∧
    (∃ m1, publicModel (likeRoute db E A).2 E = some m1 ∧ m1.like_count = 1) ∧
    (likeRoute (likeRoute db E A).2 E A).1 = LikeResp.unliked ∧
    (∃ m2, publicModel (likeRoute (likeRoute db E A).2 E A).2 E = some m2 ∧
      m2.like_count = 0) := by
  have hpm := find?_pred _ _ _ hm
  simp only [Bool.and_eq_true, beq_iff_eq] at hpm
  have hmid : m.id = E := hpm.1
  have h1 := likeRoute_create db E A m hm hfresh
  have hpm1 : publicModel (likeRoute db E A).2 E = some (bumpLike m) := by
    rw [h1]
    simp only [publicModel_updateModels _ E E bumpLike (fun x => rfl) (fun x => rfl),
      publicModel_set_likes, hm, Option.map_some]
    simp [hmid]
  have hmem1 : LikeRow.mk E A ∈ (likeRoute db E A).2.likes := by
    rw [h1]
    simp [updateModels]
  have h2 := likeRoute_delete (likeRoute db E A).2 E A (bumpLike m) hpm1 hmem1
  have hlikes1 : (likeRoute db E A).2.likes = db.likes ++ [LikeRow.mk E A] := by
    rw [h1]
    rfl
  have hpm2 : publicModel (likeRoute (likeRoute db E A).2 E A).2 E
      = some (bumpUnlike (bumpLike m)) := by
    rw [h2]
    simp only [publicModel_updateModels _ E E bumpUnlike (fun x => rfl) (fun x => rfl),
      publicModel_set_likes, hpm1, Option.map_some]
    simp [bumpLike, hmid]
  refine ⟨by rw [h1], ⟨bumpLike m, hpm1, by simp [bumpLike, h0]⟩, by rw [h2],
    ⟨bumpUnlike (bumpLike m), hpm2, by simp [bumpLike, bumpUnlike, h0]⟩⟩

/-- C6 (witness): the statement applied to the one-model store with user 2. -/
theorem C6_witness :
    (likeRoute dbEx1 1 2).1 = LikeResp.liked ∧
    (∃ m1, publicModel (likeRoute dbEx1 1 2).2 1 = some m1 ∧ m1.like_count = 1) ∧
    (likeRoute (likeRoute dbEx1 1 2).2 1 2).1 = LikeResp.unliked ∧
    (∃ m2, publicModel (likeRoute (likeRoute dbEx1 1 2).2 1 2).2 1 = some m2 ∧
      m2.like_count = 0) :=
  C6_theorem dbEx1 1 2 mEx1 (by decide) (by decide) (by decide)

/-- C9: on an existing public model the like endpoint is a toggle: it answers
liked exactly when no like by the user existed before, and the answered flag
always equals whether a like row for the pair exists after the operation. -/
theorem C9_theorem (db : DB) (E : EntityId) (u : UserId) (m : ModelRow)
    (hm : publicModel db E = some m)
    (hU : db.likes.countP (fun l => l.model_id == E && l.user_id == u) ≤ 1) :
    ((likeRoute db E u).1 = LikeResp.liked ∨ (likeRoute db E u).1 = LikeResp.unliked) ∧
    ((likeRoute db E u).1 = LikeResp.liked ↔ LikeRow.mk E u ∉ db.likes) ∧
    ((likeRoute db E u).1 = LikeResp.liked ↔ LikeRow.mk E u ∈ (likeRoute db E u).2.likes) ∧
    ((likeRoute db E u).1 = LikeResp.unliked ↔
      LikeRow.mk E u ∉ (likeRoute db E u).2.likes) := by
  by_cases hmem : LikeRow.mk E u ∈ db.likes
  · have h2 := likeRoute_delete db E u m hm hmem
    have hnot := eraseP_pair_not_mem db.likes E u hU hmem
    rw [h2]
    refine ⟨Or.inr rfl, ?_, ?_, ?_⟩
    · simp [hmem]
    · constructor
      · intro hlr
        exact absurd hlr (by simp)
      · intro hc
        exact absurd hc hnot
    · constructor
      · intro _
        exact hnot
      · intro _
        rfl
  · have h1 := likeRoute_create db E u m hm hmem
    rw [h1]
    refine ⟨Or.inl rfl, by simp [hmem], ?_, ?_⟩
    · constructor
      · intro _
        show LikeRow.mk E u ∈ db.likes ++ [LikeRow.mk E u]
        simp
      · intro _
        rfl
    · constructor
      · intro hlr
        exact absurd hlr (by simp)
      · intro hc
        exact absurd (show LikeRow.mk E u ∈ db.likes ++ [LikeRow.mk E u] by simp) hc

/-- C9 (witness): the statement applied to the one-model store with no prior
like by user 2. -/
theorem C9_witness :
    ((likeRoute dbEx1 1 2).1 = LikeResp.liked ∨ (likeRoute dbEx1 1 2).1 = LikeResp.unliked) ∧
    ((likeRoute dbEx1 1 2).1 = LikeResp.liked ↔ LikeRow.mk 1 2 ∉ dbEx1.likes) ∧
    ((likeRoute dbEx1 1 2).1 = LikeResp.liked ↔
      LikeRow.mk 1 2 ∈ (likeRoute dbEx1 1 2).2.likes) ∧
    ((likeRoute dbEx1 1 2).1 = LikeResp.unliked ↔
      LikeRow.mk 1 2 ∉ (likeRoute dbEx1 1 2).2.likes) :=
  C9_theorem dbEx1 1 2 mEx1 (by decide) (by decide)

theorem facts_insertLike (db : DB) (r : LikeRow) :
    (insertLike db r).2.downloads = db.downloads ∧
    (insertLike db r).2.model_views = db.model_views := by
  unfold insertLike updateModels
  split <;> exact ⟨rfl, rfl⟩

theorem facts_deleteLike (db : DB) (E : EntityId) (u : UserId) :
    (deleteLike db E u).downloads = db.downloads ∧
    (deleteLike db E u).model_views = db.model_views := by
  unfold deleteLike updateModels
  split <;> exact ⟨rfl, rfl⟩

theorem facts_insertComment (db : DB) (r : CommentRow) :
    (insertComment db r).downloads = db.downloads ∧
    (insertComment db r).model_views = db.model_views :=
  ⟨rfl, rfl⟩

theorem facts_deleteComment (db : DB) (cid : Nat) :
    (deleteComment db cid).downloads = db.downloads ∧
    (deleteComment db cid).model_views = db.model_views := by
  unfold deleteComment updateModels
  split <;> exact ⟨rfl, rfl⟩

theorem facts_insertDownload (db : DB) (r : DownloadRow) :
    (insertDownload db r).downloads = db.downloads ++ [r] ∧
    (insertDownload db r).model_views = db.model_views :=
  ⟨rfl, rfl⟩

theorem facts_insertView (db : DB) (r : ViewRow) :
    (insertView db r).downloads = db.downloads ∧
    (insertView db r).model_views = db.model_views ++ [r] :=
  ⟨rfl, rfl⟩

theorem facts_getModelRoute (db : DB) (E : EntityId) (uF : Bool) :
    (getModelRoute db E uF).2.downloads = db.downloads ∧
    (getModelRoute db E uF).2.model_views = db.model_views := by
  unfold getModelRoute updateModels
  split
  · exact ⟨rfl, rfl⟩
  · split <;> exact ⟨rfl, rfl⟩

theorem facts_likeRoute (db : DB) (E : EntityId) (u : UserId) :
    (likeRoute db E u).2.downloads = db.downloads ∧
    (likeRoute db E u).2.model_views = db.model_views := by
  unfold likeRoute
  split
  · exact ⟨rfl, rfl⟩
  · split
    · exact facts_deleteLike db E u
    · dsimp only
      split
      · exact facts_insertLike db (LikeRow.mk E u)
      · exact ⟨rfl, rfl⟩

theorem facts_downloadRoute (db : DB) (E : EntityId) (u : UserId) (iF fF : Bool) :
    (∃ t, (downloadRoute db E u iF fF).2.downloads = db.downloads ++ t) ∧
    (downloadRoute db E u iF fF).2.model_views = db.model_views := by
  unfold downloadRoute
  split
  · exact ⟨⟨[], (List.append_nil _).symm⟩, rfl⟩
  · split
    · exact ⟨⟨[], (List.append_nil _).symm⟩, rfl⟩
    · dsimp only
      cases iF with
      | true => cases fF <;> exact ⟨⟨[], (List.append_nil _).symm⟩, rfl⟩
      | false => cases fF <;> exact ⟨⟨[DownloadRow.mk E (some u)], rfl⟩, rfl⟩

theorem facts_frontendDownload (db : DB) (E : EntityId) (u : UserId) (fetched : Int)
    (sF iF uF : Bool) :
    (∃ t, (frontendDownload db E u fetched sF iF uF).2.downloads = db.downloads ++ t) ∧
    (frontendDownload db E u fetched sF iF uF).2.model_views = db.model_views := by
  unfold frontendDownload frontendCountUpdate insertDownload updateModels
  cases sF with
  | true => exact ⟨⟨[], (List.append_nil _).symm⟩, rfl⟩
  | false =>
      cases iF with
      | true => cases uF <;> exact ⟨⟨[], (List.append_nil _).symm⟩, rfl⟩
      | false => cases uF <;> exact ⟨⟨[DownloadRow.mk E (some u)], rfl⟩, rfl⟩

theorem apply_facts_mono (db : DB) (op : Op) :
    (∃ t, (Op.apply db op).downloads = db.downloads ++ t) ∧
    (∃ t2, (Op.apply db op).model_views = db.model_views ++ t2) := by
  cases op with
  | opInsertLike r =>
      simp only [Op.apply]
      exact ⟨⟨[], by rw [(facts_insertLike db r).1, List.append_nil]⟩,
        ⟨[], by rw [(facts_insertLike db r).2, List.append_nil]⟩⟩
  | opDeleteLike E u =>
      simp only [Op.apply]
      exact ⟨⟨[], by rw [(facts_deleteLike db E u).1, List.append_nil]⟩,
        ⟨[], by rw [(facts_deleteLike db E u).2, List.append_nil]⟩⟩
  | opInsertComment r =>
      simp only [Op.apply]
      exact ⟨⟨[], by rw [(facts_insertComment db r).1, List.append_nil]⟩,
        ⟨[], by rw [(facts_insertComment db r).2, List.append_nil]⟩⟩
  | opDeleteComment cid =>
      simp only [Op.apply]
      exact ⟨⟨[], by rw [(facts_deleteComment db cid).1, List.append_nil]⟩,
        ⟨[], by rw [(facts_deleteComment db cid).2, List.append_nil]⟩⟩
  | opInsertDownload r =>
      simp only [Op.apply]
      exact ⟨⟨[r], (facts_insertDownload db r).1⟩,
        ⟨[], by rw [(facts_insertDownload db r).2, List.append_nil]⟩⟩
  | opInsertView r =>
      simp only [Op.apply]
      exact ⟨⟨[], by rw [(facts_insertView db r).1, List.append_nil]⟩,
        ⟨[r], (facts_insertView db r).2⟩⟩
  | opGetModel E uF =>
      simp only [Op.apply]
      exact ⟨⟨[], by rw [(facts_getModelRoute db E uF).1, List.append_nil]⟩,
        ⟨[], by rw [(facts_getModelRoute db E uF).2, List.append_nil]⟩⟩
  | opLikeRoute E u =>
      simp only [Op.apply]
      exact ⟨⟨[], by rw [(facts_likeRoute db E u).1, List.append_nil]⟩,
        ⟨[], by rw [(facts_likeRoute db E u).2, List.append_nil]⟩⟩
  | opDownloadRoute E u iF fF =>
      simp only [Op.apply]
      exact ⟨(facts_downloadRoute db E u iF fF).1,
        ⟨[], by rw [(facts_downloadRoute db E u iF fF).2, List.append_nil]⟩⟩
  | opFrontendDownload E u fetched sF iF uF =>
      simp only [Op.apply]
      exact ⟨(facts_frontendDownload db E u fetched sF iF uF).1,
        ⟨[], by rw [(facts_frontendDownload db E u fetched sF iF uF).2, List.append_nil]⟩⟩

/-- C7: download facts and view facts are append-only: along every sequence of
the program operations the downloads table and the model_views table only ever
grow by appended rows, so no operation deletes a download or view fact. -/
theorem C7_theorem (ops : List Op) (db : DB) :
    (∃ t, (ops.foldl Op.apply db).downloads = db.downloads ++ t) ∧
    (∃ t2, (ops.foldl Op.apply db).model_views = db.model_views ++ t2) := by
  induction ops generalizing db with
  | nil =>
      exact ⟨⟨[], (List.append_nil _).symm⟩, ⟨[], (List.append_nil _).symm⟩⟩
  | cons op rest ih =>
      obtain ⟨⟨t1, h1⟩, ⟨t2, h2⟩⟩ := apply_facts_mono db op
      obtain ⟨⟨s1, g1⟩, ⟨s2, g2⟩⟩ := ih (Op.apply db op)
      rw [List.foldl_cons]
      exact ⟨⟨t1 ++ s1, by rw [g1, h1, List.append_assoc]⟩,
        ⟨t2 ++ s2, by rw [g2, h2, List.append_assoc]⟩⟩

theorem bumpLikeBy_zero (E : EntityId) (m : ModelRow) : bumpLikeBy E 0 m = m := by
  unfold bumpLikeBy
  split <;> simp

theorem bumpLikeBy_id (E : EntityId) (k : Nat) (m : ModelRow) :
    (bumpLikeBy E k m).id = m.id := by
  unfold bumpLikeBy
  split <;> rfl

theorem bumpLikeBy_pub (E : EntityId) (k : Nat) (m : ModelRow) :
    (bumpLikeBy E k m).is_public = m.is_public := by
  unfold bumpLikeBy
  split <;> rfl

theorem map_bumpLikeBy_succ (E : EntityId) (k : Nat) (l : List ModelRow) :
    (l.map (bumpLikeBy E k)).map (fun m => if m.id = E then bumpLike m else m)
      = l.map (bumpLikeBy E (k + 1)) := by
  rw [List.map_map]
  apply List.map_congr_left
  intro a _
  show (if (bumpLikeBy E k a).id = E then bumpLike (bumpLikeBy E k a) else bumpLikeBy E k a)
    = bumpLikeBy E (k + 1) a
  by_cases h : a.id = E
  · rw [bumpLikeBy_id, if_pos h]
    unfold bumpLikeBy bumpLike
    rw [if_pos h, if_pos h]
    have hval : a.like_count + (k : Int) + 1 = a.like_count + ((k + 1 : Nat) : Int) := by
      push_cast
      ring
    rw [hval]
  · rw [bumpLikeBy_id, if_neg h]
    unfold bumpLikeBy
    rw [if_neg h, if_neg h]

theorem doneCard_update_of_ne {n : Nat} (ph : Fin n → Phase) (i : Fin n) (v : Phase)
    (hpi : ph i ≠ Phase.done) (hv : v ≠ Phase.done) :
    doneCard (Function.update ph i v) = doneCard ph := by
  unfold doneCard
  apply congrArg Finset.card
  ext j
  simp only [Finset.mem_filter, Finset.mem_univ, true_and]
  by_cases hj : j = i
  · subst hj
    rw [Function.update_same]
    simp [hv, hpi]
  · rw [Function.update_noteq hj]

theorem doneCard_update_done {n : Nat} (ph : Fin n → Phase) (i : Fin n)
    (hpi : ph i ≠ Phase.done) :
    doneCard (Function.update ph i Phase.done) = doneCard ph + 1 := by
  unfold doneCard
  have hins : (Finset.univ.filter fun j => Function.update ph i Phase.done j = Phase.done)
      = insert i (Finset.univ.filter fun j => ph j = Phase.done) := by
    ext j
    simp only [Finset.mem_filter, Finset.mem_univ, true_and, Finset.mem_insert]
    by_cases hj : j = i
    · subst hj
      rw [Function.update_same]
      simp
    · rw [Function.update_noteq hj]
      simp [hj]
  rw [hins, Finset.card_insert_of_not_mem]
  simp [hpi]

theorem update_done_iff_of_ne {n : Nat} (ph : Fin n → Phase) (i : Fin n) (v : Phase)
    (hv : v ≠ Phase.done) (hpi : ph i ≠ Phase.done) (j : Fin n) :
    Function.update ph i v j = Phase.done ↔ ph j = Phase.done := by
  by_cases hj : j = i
  · subst hj
    rw [Function.update_same]
    simp [hv, hpi]
  · rw [Function.update_noteq hj]

theorem update_to_done_iff {n : Nat} (ph : Fin n → Phase) (i : Fin n) (j : Fin n) :
    Function.update ph i Phase.done j = Phase.done ↔ (j = i ∨ ph j = Phase.done) := by
  by_cases hj : j = i
  · subst hj
    rw [Function.update_same]
    simp
  · rw [Function.update_noteq hj]
    simp [hj]

theorem likeInv_phase_update {n : Nat} (E : EntityId) (users : Fin n → UserId) (db0 : DB)
    (s : Session n) (i : Fin n) (v : Phase)
    (hs : likeInv E users db0 s)
    (hpi : s.phase i ≠ Phase.done)
    (hv1 : v ≠ Phase.done) (hv2 : v ≠ Phase.rejected) (hv3 : v ≠ Phase.failed)
    (hv4 : v ≠ Phase.checked true) :
    likeInv E users db0 { s with phase := Function.update s.phase i v } := by
  obtain ⟨hmods, hlikes, hrej, hfail, hchk⟩ := hs
  have hiff := fun j => update_done_iff_of_ne s.phase i v hv1 hpi j
  refine ⟨?_, ?_, ?_, ?_, ?_⟩
  · show s.db.models = db0.models.map (bumpLikeBy E (doneCard (Function.update s.phase i v)))
    rw [doneCard_update_of_ne s.phase i v hpi hv1]
    exact hmods
  · intro r
    show r ∈ s.db.likes ↔ _
    rw [hlikes r]
    constructor
    · rintro (h | ⟨j, hj, hr⟩)
      exacts [Or.inl h, Or.inr ⟨j, (hiff j).mpr hj, hr⟩]
    · rintro (h | ⟨j, hj, hr⟩)
      exacts [Or.inl h, Or.inr ⟨j, (hiff j).mp hj, hr⟩]
  · intro j
    show Function.update s.phase i v j ≠ Phase.rejected
    by_cases hj : j = i
    · subst hj
      rw [Function.update_same]
      exact hv2
    · rw [Function.update_noteq hj]
      exact hrej j
  · intro j
    show Function.update s.phase i v j ≠ Phase.failed
    by_cases hj : j = i
    · subst hj
      rw [Function.update_same]
      exact hv3
    · rw [Function.update_noteq hj]
      exact hfail j
  · intro j
    show Function.update s.phase i v j ≠ Phase.checked true
    by_cases hj : j = i
    · subst hj
      rw [Function.update_same]
      exact hv4
    · rw [Function.update_noteq hj]
      exact hchk j

theorem likeStep_start_ok {n : Nat} (E : EntityId) (users : Fin n → UserId)
    (s : Session n) (i : Fin n) (hp : s.phase i = Phase.start)
    (hok : (s.db.models.find? fun m => m.id == E && m.is_public).isSome = true) :
    likeStep E users s i = { s with phase := Function.update s.phase i Phase.ready } := by
  unfold likeStep
  simp [hp, hok]

theorem likeStep_ready {n : Nat} (E : EntityId) (users : Fin n → UserId)
    (s : Session n) (i : Fin n) (hp : s.phase i = Phase.ready) :
    likeStep E users s i =
      { s with phase := Function.update s.phase i (Phase.checked (s.db.likes.find? fun l => l.model_id == E && l.user_id == users i).isSome) } := by
  unfold likeStep
  simp [hp]

theorem likeStep_checked_false_ok {n : Nat} (E : EntityId) (users : Fin n → UserId)
    (s : Session n) (i : Fin n) (hp : s.phase i = Phase.checked false)
    (hnew : (s.db.likes.any fun l => l.model_id == E && l.user_id == users i) = false) :
    likeStep E users s i =
      { db := updateModels { s.db with likes := s.db.likes ++ [LikeRow.mk E (users i)] } E bumpLike,
        phase := Function.update s.phase i Phase.done } := by
  unfold likeStep insertLike
  simp [hp, hnew]

theorem likeStep_done {n : Nat} (E : EntityId) (users : Fin n → UserId)
    (s : Session n) (i : Fin n) (hp : s.phase i = Phase.done) :
    likeStep E users s i = s := by
  unfold likeStep
  simp [hp]

theorem likeInv_step {n : Nat} (E : EntityId) (users : Fin n → UserId) (db0 : DB)
    (hinj : Function.Injective users)
    (hfresh : ∀ i, LikeRow.mk E (users i) ∉ db0.likes)
    (hmodel : (db0.models.find? fun m => m.id == E && m.is_public).isSome = true)
    (s : Session n) (i : Fin n)
    (hs : likeInv E users db0 s) : likeInv E users db0 (likeStep E users s i) := by
  obtain ⟨hmods, hlikes, hrej, hfail, hchk⟩ := hs
  have hnotmem : s.phase i ≠ Phase.done → LikeRow.mk E (users i) ∉ s.db.likes := by
    intro hnd hcon
    rcases (hlikes (LikeRow.mk E (users i))).mp hcon with h | ⟨j, hj, hr⟩
    · exact hfresh i h
    · injection hr with h1 h2
      have hij : i = j := hinj h2
      rw [← hij] at hj
      exact hnd hj
  cases hph : s.phase i with
  | start =>
      have hfp : ((s.db.models.find? fun m => m.id == E && m.is_public).isSome) = true := by
        rw [hmods, find?_map_pred (bumpLikeBy E (doneCard s.phase))
          (fun m => m.id == E && m.is_public)
          (fun a => by simp [bumpLikeBy_id, bumpLikeBy_pub]) db0.models]
        rw [Option.isSome_map']
        exact hmodel
      rw [likeStep_start_ok E users s i hph hfp]
      exact likeInv_phase_update E users db0 s i Phase.ready
        ⟨hmods, hlikes, hrej, hfail, hchk⟩ (by simp [hph]) (by simp) (by simp) (by simp)
        (by simp)
  | ready =>
      have hnm := hnotmem (by simp [hph])
      have hfound : (s.db.likes.find?
          fun l => l.model_id == E && l.user_id == users i).isSome = false := by
        cases hcase : (s.db.likes.find?
            fun l => l.model_id == E && l.user_id == users i).isSome
        · rfl
        · exact absurd ((likeFind_isSome s.db.likes E (users i)).mp hcase) hnm
      rw [likeStep_ready E users s i hph, hfound]
      exact likeInv_phase_update E users db0 s i (Phase.checked false)
        ⟨hmods, hlikes, hrej, hfail, hchk⟩ (by simp [hph]) (by simp) (by simp) (by simp)
        (by simp)
  | checked b =>
      cases b with
      | true => exact absurd hph (hchk i)
      | false =>
          have hnm := hnotmem (by simp [hph])
          have hnew : (s.db.likes.any fun l =>
              l.model_id == E && l.user_id == users i) = false := by
            cases hcase : (s.db.likes.any fun l =>
                l.model_id == E && l.user_id == users i)
            · rfl
            · exact absurd ((likeAny_iff s.db.likes E (users i)).mp hcase) hnm
          rw [likeStep_checked_false_ok E users s i hph hnew]
          have hpi : s.phase i ≠ Phase.done := by simp [hph]
          refine ⟨?_, ?_, ?_, ?_, ?_⟩
          · show (s.db.models.map fun m => if m.id = E then bumpLike m else m)
              = db0.models.map
                  (bumpLikeBy E (doneCard (Function.update s.phase i Phase.done)))
            rw [hmods, map_bumpLikeBy_succ, doneCard_update_done s.phase i hpi]
          · intro r
            show r ∈ s.db.likes ++ [LikeRow.mk E (users i)] ↔ _
            rw [List.mem_append, hlikes r, List.mem_singleton]
            constructor
            · rintro ((h | ⟨j, hj, hr⟩) | hmk)
              · exact Or.inl h
              · exact Or.inr ⟨j, (update_to_done_iff s.phase i j).mpr (Or.inr hj), hr⟩
              · exact Or.inr ⟨i, (update_to_done_iff s.phase i i).mpr (Or.inl rfl), hmk⟩
            · rintro (h | ⟨j, hj, hr⟩)
              · exact Or.inl (Or.inl h)
              · rcases (update_to_done_iff s.phase i j).mp hj with rfl | hjd
                · exact Or.inr hr
                · exact Or.inl (Or.inr ⟨j, hjd, hr⟩)
          · intro j
            show Function.update s.phase i Phase.done j ≠ Phase.rejected
            by_cases hj : j = i
            · subst hj
              rw [Function.update_same]
              simp
            · rw [Function.update_noteq hj]
              exact hrej j
          · intro j
            show Function.update s.phase i Phase.done j ≠ Phase.failed
            by_cases hj : j = i
            · subst hj
              rw [Function.update_same]
              simp
            · rw [Function.update_noteq hj]
              exact hfail j
          · intro j
            show Function.update s.phase i Phase.done j ≠ Phase.checked true
            by_cases hj : j = i
            · subst hj
              rw [Function.update_same]
              simp
            · rw [Function.update_noteq hj]
              exact hchk j
  | done =>
      rw [likeStep_done E users s i hph]
      exact ⟨hmods, hlikes, hrej, hfail, hchk⟩
  | rejected => exact absurd hph (hrej i)
  | failed => exact absurd hph (hfail i)

theorem likeInv_init {n : Nat} (E : EntityId) (users : Fin n → UserId) (db0 : DB) :
    likeInv E users db0 { db := db0, phase := fun _ => Phase.start } := by
  refine ⟨?_, ?_, ?_, ?_, ?_⟩
  · show db0.models = db0.models.map (bumpLikeBy E (doneCard fun _ : Fin n => Phase.start))
    have h0 : doneCard (fun _ : Fin n => Phase.start) = 0 := by
      unfold doneCard
      simp
    rw [h0, show bumpLikeBy E 0 = id from funext (bumpLikeBy_zero E), List.map_id]
  · intro r
    show r ∈ db0.likes ↔ _
    simp
  · intro j
    exact fun h => Phase.noConfusion h
  · intro j
    exact fun h => Phase.noConfusion h
  · intro j
    exact fun h => Phase.noConfusion h

theorem likeInv_run {n : Nat} (E : EntityId) (users : Fin n → UserId) (db0 : DB)
    (hinj : Function.Injective users)
    (hfresh : ∀ i, LikeRow.mk E (users i) ∉ db0.likes)
    (hmodel : (db0.models.find? fun m => m.id == E && m.is_public).isSome = true)
    (sched : List (Fin n)) :
    likeInv E users db0 (likeRun E users db0 sched) := by
  unfold likeRun
  have hstep : ∀ (t : List (Fin n)) (s : Session n), likeInv E users db0 s →
      likeInv E users db0 (t.foldl (likeStep E users) s) := by
    intro t
    induction t with
    | nil => intro s hs; exact hs
    | cons a rest ih =>
        intro s hs
        rw [List.foldl_cons]
        exact ih _ (likeInv_step E users db0 hinj hfresh hmodel s a hs)
  exact hstep sched _ (likeInv_init E users db0)

/-- C8: N concurrent executions of the like-creation path by N distinct users
with no prior like, under every interleaving of their store statements that
runs each request to completion, raise the like counter of the model by
exactly N. -/
theorem C8_theorem (n : Nat) (E : EntityId) (users : Fin n → UserId) (db0 : DB)
    (m0 : ModelRow) (sched : List (Fin n))
    (hinj : Function.Injective users)
    (hfresh : ∀ i, LikeRow.mk E (users i) ∉ db0.likes)
    (hm0 : publicModel db0 E = some m0)
    (hdone : ∀ i, (likeRun E users db0 sched).phase i = Phase.done) :
    ∃ m1, publicModel (likeRun E users db0 sched).db E = some m1 ∧
      m1.like_count = m0.like_count + (n : Int) := by
  have hmodel : (db0.models.find? fun m => m.id == E && m.is_public).isSome = true := by
    rw [show db0.models.find? (fun m => m.id == E && m.is_public) = some m0 from hm0]
    rfl
  obtain ⟨hmods, hlikes, hrej, hfail, hchk⟩ :=
    likeInv_run E users db0 hinj hfresh hmodel sched
  have hcard : doneCard (likeRun E users db0 sched).phase = n := by
    unfold doneCard
    rw [Finset.filter_true_of_mem (fun i _ => hdone i)]
    simp
  have hid : m0.id = E := by
    have h2 := find?_pred _ _ _ hm0
    simp only [Bool.and_eq_true, beq_iff_eq] at h2
    exact h2.1
  refine ⟨bumpLikeBy E n m0, ?_, ?_⟩
  · show (likeRun E users db0 sched).db.models.find?
        (fun m => m.id == E && m.is_public) = some (bumpLikeBy E n m0)
    rw [hmods, hcard, find?_map_pred (bumpLikeBy E n)
      (fun m => m.id == E && m.is_public)
      (fun a => by simp [bumpLikeBy_id, bumpLikeBy_pub]) db0.models]
    rw [show db0.models.find? (fun m => m.id == E && m.is_public) = some m0 from hm0]
    rfl
  · unfold bumpLikeBy
    rw [if_pos hid]

/-- C8 (witness): two interleaved requests by users 2 and 3 on the one-model
store, each scheduled through its three statements. -/
theorem C8_witness :
    ∃ m1, publicModel
        (likeRun 1 (fun i : Fin 2 => 2 + (i : Nat)) dbEx1 [0, 1, 0, 1, 0, 1]).db 1
        = some m1 ∧
      m1.like_count = mEx1.like_count + ((2 : Nat) : Int) :=
  C8_theorem 2 1 (fun i : Fin 2 => 2 + (i : Nat)) dbEx1 mEx1 [0, 1, 0, 1, 0, 1]
    (by decide) (by decide) (by decide) (by decide)

end ModelShare
